import Mathlib

/-! ToDo-Golang: the four todo handlers of `main.go`

A shallow embedding of `fetchTodos`, `createTodo`, `updateTodo` and `deleteTodo`
(`src/main.go`) together with the parts of the libraries they call:

* `encoding/hex` and `gopkg.in/mgo.v2/bson` object identifiers
  (`IsObjectIdHex`, `ObjectIdHex`, `ObjectId.Hex`);
* `strings.TrimSpace`;
* `time.Time.Format(time.RFC3339)`;
* the four `mgo` collection operations the handlers issue
  (`Find(bson.M{}).All`, `Insert`, `Update`, `RemoveId`), acting on a collection
  that is a list of BSON documents;
* `rnd.JSON(w, status, value)`, recorded as the status and the value handed to it.

A handler is a function from the collection, the environment of the call (the
identifier `bson.NewObjectId()` returns, the clock, a storage failure injected by
the driver) and the request to the response written, the collection afterwards and
the list of storage operations sent.
-/

set_option autoImplicit false

namespace TodoGolang

/-! ## `encoding/hex` -/

/-- The table `hextable = "0123456789abcdef"` of `encoding/hex`. -/
def hextable : List Char := "0123456789abcdef".data

/-- The character `hextable[n]`. -/
def hexDigit (n : Nat) : Char := hextable.getD n '0'

/-- The two characters `hextable[v>>4]`, `hextable[v&0x0f]` that `hex.Encode` writes
for the byte `v`. -/
def encodeByte (v : Fin 256) : List Char := [hexDigit (v.val / 16), hexDigit (v.val % 16)]

/-- The function `hex.EncodeToString` on a list of bytes, as a list of characters. -/
def encodeHex : List (Fin 256) → List Char
  | [] => []
  | v :: rest => encodeByte v ++ encodeHex rest

/-- The function `fromHexChar` of `encoding/hex`: the value of one hexadecimal digit,
in either case, `none` for any other character. -/
def fromHexChar (c : Char) : Option Nat :=
  if '0' ≤ c ∧ c ≤ '9' then some (c.toNat - '0'.toNat)
  else if 'a' ≤ c ∧ c ≤ 'f' then some (c.toNat - 'a'.toNat + 10)
  else if 'A' ≤ c ∧ c ≤ 'F' then some (c.toNat - 'A'.toNat + 10)
  else none

/-- The function `hex.DecodeString` on the characters of a string: every pair of
hexadecimal digits gives the byte `(a << 4) | b`; a character that is no digit, or an
odd number of characters, is an error (`none`). -/
def decodeHex : List Char → Option (List (Fin 256))
  | [] => some []
  | [_] => none
  | a :: b :: rest =>
    match fromHexChar a, fromHexChar b, decodeHex rest with
    | some x, some y, some bs => some (Fin.ofNat (x * 16 + y) :: bs)
    | _, _, _ => none

/-! ## `bson.ObjectId` -/

/-- A `bson.ObjectId`: twelve bytes. -/
structure ObjectId where
  bytes : List (Fin 256)
  size : bytes.length = 12
deriving DecidableEq

/-- The method `ObjectId.Hex`: `hex.EncodeToString([]byte(id))`. -/
def ObjectId.Hex (id : ObjectId) : String := ⟨encodeHex id.bytes⟩

/-- The function `bson.IsObjectIdHex`: `len(s) == 24` (a length in bytes) and
`hex.DecodeString(s)` succeeds. -/
def IsObjectIdHex (s : String) : Bool :=
  if s.utf8ByteSize ≠ 24 then false
  else (decodeHex s.data).isSome

/-- The function `bson.ObjectIdHex`: the identifier a hex string denotes. The Go
function panics when `hex.DecodeString` fails or gives other than twelve bytes; that
is `none` here. -/
def ObjectIdHex (s : String) : Option ObjectId :=
  match decodeHex s.data with
  | none => none
  | some d => if h : d.length = 12 then some ⟨d, h⟩ else none

/-! ## `strings.TrimSpace` -/

/-- The predicate `unicode.IsSpace`: the characters of Unicode's White_Space
property. -/
def isSpace (c : Char) : Bool :=
  c.toNat ∈ [0x09, 0x0A, 0x0B, 0x0C, 0x0D, 0x20, 0x85, 0xA0, 0x1680, 0x2028, 0x2029,
    0x202F, 0x205F, 0x3000] || (0x2000 ≤ c.toNat && c.toNat ≤ 0x200A)

/-- The function `strings.TrimSpace`: the string without its leading and trailing
white space. -/
def TrimSpace (s : String) : String :=
  ⟨((s.data.dropWhile isSpace).reverse.dropWhile isSpace).reverse⟩

/-! ## `time.Time` and `Format(time.RFC3339)` -/

/-- An instant, as BSON stores it: milliseconds since the Unix epoch. The zone of
the server is taken to be UTC. -/
structure Time where
  unixMilli : Int
deriving DecidableEq

/-- The zero `time.Time{}`: January 1, year 1, 00:00:00 UTC. It is what a
`todoModel.CreatedAt` holds when the document read has no `created_at` element. -/
def Time.zero : Time := ⟨-62135596800000⟩

/-- A natural number in decimal, left-padded with zeros to `width` digits, as
`appendInt` of package `time` writes it. -/
def pad (width n : Nat) : List Char :=
  let ds := (Nat.toDigits 10 n)
  List.replicate (width - ds.length) '0' ++ ds

/-- The year, month and day of the proleptic Gregorian calendar for a number of days
since 1970-01-01. -/
def civilFromDays (days : Int) : Int × Nat × Nat :=
  let z := days + 719468
  let era := Int.fdiv z 146097
  let doe := (z - era * 146097).toNat
  let yoe := (doe - doe / 1460 + doe / 36524 - doe / 146096) / 365
  let doy := doe - (365 * yoe + yoe / 4 - yoe / 100)
  let mp := (5 * doy + 2) / 153
  let d := doy - (153 * mp + 2) / 5 + 1
  let m := if mp < 10 then mp + 3 else mp - 9
  let y := (yoe : Int) + era * 400
  (if m ≤ 2 then y + 1 else y, m, d)

/-- The method `Time.Format(time.RFC3339)` for an instant in UTC:
`2006-01-02T15:04:05Z`. The fraction of a second is not printed. -/
def Time.FormatRFC3339 (t : Time) : String :=
  let secs := Int.fdiv t.unixMilli 1000
  let days := Int.fdiv secs 86400
  let sod := (secs - days * 86400).toNat
  let (y, m, d) := civilFromDays days
  let year := if y < 0 then '-' :: pad 4 y.natAbs else pad 4 y.natAbs
  ⟨year ++ ['-'] ++ pad 2 m ++ ['-'] ++ pad 2 d ++ ['T'] ++ pad 2 (sod / 3600) ++ [':'] ++
    pad 2 (sod % 3600 / 60) ++ [':'] ++ pad 2 (sod % 60) ++ ['Z']⟩

/-! ## The data model (`main.go`, lines 32-47) -/

/-- The struct `todoModel`: the record kept in the database. -/
structure todoModel where
  ID : ObjectId
  Title : String
  Completed : Bool
  CreatedAt : Time
deriving DecidableEq

/-- The struct `todo`: the data sent to and read from the client. -/
structure todo where
  ID : String
  Title : String
  Completed : Bool
  CreatedAt : String
deriving DecidableEq

/-! ## BSON documents and the collection -/

/-- The values of the BSON elements the program writes. -/
inductive BsonValue where
  | string (s : String)
  | bool (b : Bool)
  | datetime (t : Time)
deriving DecidableEq

/-- A document of the collection: its `_id`, which every stored document has, and
its other elements in order. -/
structure Document where
  id : ObjectId
  elems : List (String × BsonValue)
deriving DecidableEq

/-- The value of the first element named `key`. -/
def Document.lookup (d : Document) (key : String) : Option BsonValue :=
  (d.elems.find? (fun e => e.1 == key)).map Prod.snd

/-- The document `bson.Marshal` gives for a `todoModel`. The keys are those of the
struct tags; `Title` has no `bson` tag, so its key is the lowercased field name. -/
def todoModel.toDocument (tm : todoModel) : Document :=
  { id := tm.ID
    elems := [("title", .string tm.Title), ("completed", .bool tm.Completed),
      ("created_at", .datetime tm.CreatedAt)] }

/-- The `todoModel` that `bson.Unmarshal` fills from a document, starting from the
zero value: an element that is absent, or whose value does not fit the field, leaves
the field at its zero value. -/
def Document.toTodoModel (d : Document) : todoModel :=
  { ID := d.id
    Title := match d.lookup "title" with
      | some (.string s) => s
      | _ => ""
    Completed := match d.lookup "completed" with
      | some (.bool b) => b
      | _ => false
    CreatedAt := match d.lookup "created_at" with
      | some (.datetime t) => t
      | _ => Time.zero }

/-- The collection `db.C(collectionName)`: its documents in natural order. -/
abbrev Collection := List Document

/-- Identifiers are unique in a collection: the database keeps a unique index on
`_id`. -/
def Collection.UniqueIds (c : Collection) : Prop := (c.map Document.id).Nodup

instance (c : Collection) : Decidable c.UniqueIds :=
  inferInstanceAs (Decidable (c.map Document.id).Nodup)

/-- The errors a collection operation of `mgo` returns. -/
inductive MgoError where
  /-- The value `mgo.ErrNotFound`. -/
  | ErrNotFound
  /-- The `*mgo.LastError` of an insert whose `_id` is already in the collection. -/
  | duplicateKey
  /-- Any other failure of the driver or the server, with its text. -/
  | failure (text : String)
deriving DecidableEq

/-- The call `Find(bson.M{}).All(&todos)`: every document of the collection, in
order, unmarshalled into a `todoModel`. `fault` is a failure of the driver or the
server on this call. -/
def Collection.All (c : Collection) (fault : Option MgoError) :
    Except MgoError (List todoModel) :=
  match fault with
  | some err => .error err
  | none => .ok (c.map Document.toTodoModel)

/-- The call `Insert(doc)`: the document is added at the end of the collection; an
`_id` already present is a duplicate-key error and nothing is added. -/
def Collection.Insert (c : Collection) (fault : Option MgoError) (doc : Document) :
    Except MgoError Collection :=
  match fault with
  | some err => .error err
  | none => if c.any (fun d => d.id == doc.id) then .error .duplicateKey else .ok (c ++ [doc])

/-- The document with identifier `id` replaced, where it stands, by a document with
the same `_id` and the elements `elems` only. -/
def replaceFirst (id : ObjectId) (elems : List (String × BsonValue)) : Collection → Collection
  | [] => []
  | d :: rest => if d.id = id then { id := d.id, elems := elems } :: rest
    else d :: replaceFirst id elems rest

/-- The call `Update(bson.M{"_id": id}, update)` where no key of `update` is a
`$` operator, as in `updateTodo`: the server takes such an update document as a
replacement, so the first document matching the selector keeps its `_id` and gets
exactly the elements of `update`. In safe mode, the default of a session,
`ErrNotFound` is returned when no document matches. -/
def Collection.Update (c : Collection) (fault : Option MgoError) (id : ObjectId)
    (update : List (String × BsonValue)) : Except MgoError Collection :=
  match fault with
  | some err => .error err
  | none => if c.any (fun d => d.id == id) then .ok (replaceFirst id update c)
    else .error .ErrNotFound

/-- The call `RemoveId(id)`, that is `Remove(bson.D{{"_id", id}})`: the first
document matching is removed. In safe mode, the default of a session, `ErrNotFound`
is returned when no document matches. -/
def Collection.RemoveId (c : Collection) (fault : Option MgoError) (id : ObjectId) :
    Except MgoError Collection :=
  match fault with
  | some err => .error err
  | none => if c.any (fun d => d.id == id) then .ok (c.eraseP (fun d => d.id == id))
    else .error .ErrNotFound

/-- A storage operation sent to the database. -/
inductive StorageOp where
  | findAll
  | insert (doc : Document)
  | update (id : ObjectId) (update : List (String × BsonValue))
  | removeId (id : ObjectId)
deriving DecidableEq

/-! ## Requests and responses -/

/-- The errors `json.NewDecoder(r.Body).Decode(&t)` returns for a body that is not
the JSON of a `todo`. -/
inductive DecodeError where
  /-- A `*json.SyntaxError`; its exported field is `Offset`. -/
  | syntaxError (offset : Nat)
  /-- A `*json.UnmarshalTypeError`: a JSON value that does not fit its Go field. -/
  | unmarshalTypeError (value : String) (offset : Nat) (field : String)
  /-- The value `io.EOF`: the body is empty. -/
  | EOF
  /-- The value `io.ErrUnexpectedEOF`: the body ends inside a JSON value. -/
  | ErrUnexpectedEOF
deriving DecidableEq

/-- The keys of the JSON object `encoding/json` writes for a decode error: the names
of the exported fields of the error's struct. -/
def DecodeError.jsonKeys : DecodeError → List String
  | .syntaxError _ => ["Offset"]
  | .unmarshalTypeError _ _ _ => ["Value", "Type", "Offset", "Struct", "Field"]
  | .EOF => []
  | .ErrUnexpectedEOF => []

/-- A request as a handler reads it: the URL parameter `chi.URLParam(r, "id")` and
the outcome of decoding the body into a `todo`. -/
structure Request where
  idParam : String
  body : Except DecodeError todo

/-- A value stored under a key of a `renderer.M`. -/
inductive Value where
  | string (s : String)
  | error (err : MgoError)
  /-- A slice of `todo`, never nil: it is written as a JSON array. -/
  | todoList (l : List todo)
  /-- A nil slice, written as JSON `null`. No handler produces it. -/
  | null
deriving DecidableEq

/-- The value handed to `rnd.JSON`: a map `renderer.M`, or a decode error itself. -/
inductive Body where
  | M (fields : List (String × Value))
  | decodeError (err : DecodeError)
deriving DecidableEq

/-- The keys of the JSON object written for a body. -/
def Body.keys : Body → List String
  | .M fields => fields.map Prod.fst
  | .decodeError err => err.jsonKeys

/-- The value under `key` in a body that is a map. -/
def Body.field (b : Body) (key : String) : Option Value :=
  match b with
  | .M fields => (fields.find? (fun f => f.1 == key)).map Prod.snd
  | .decodeError _ => none

/-- The call `rnd.JSON(w, status, body)`. -/
structure Response where
  status : Nat
  body : Body
deriving DecidableEq

/-- The constant `http.StatusProcessing`. -/
def StatusProcessing : Nat := 102
/-- The constant `http.StatusOK`. -/
def StatusOK : Nat := 200
/-- The constant `http.StatusCreated`. -/
def StatusCreated : Nat := 201
/-- The constant `http.StatusBadRequest`. -/
def StatusBadRequest : Nat := 400

/-- What a call of a handler depends on besides the collection and the request. -/
structure Env where
  /-- The identifier `bson.NewObjectId()` returns. -/
  newId : ObjectId
  /-- The instant `time.Now()` returns. -/
  now : Time
  /-- A failure of the driver or the server on the storage operation of the call,
  reported before the operation is applied. -/
  fault : Option MgoError

/-- The effect of a call of a handler. -/
structure Result where
  /-- The response written; `none` when the handler panicked before writing one. -/
  response : Option Response
  /-- The collection after the call. -/
  coll : Collection
  /-- The storage operations sent, in order. -/
  ops : List StorageOp
deriving DecidableEq

/-! ## The handlers -/

/-- The handler `fetchTodos` (`main.go`, lines 63-89). -/
def fetchTodos (c : Collection) (env : Env) : Result :=
  match c.All env.fault with
  | .error err =>
    { response := some ⟨StatusProcessing,
        .M [("message", .string "Error fetching todos"), ("error", .error err)]⟩
      coll := c
      ops := [.findAll] }
  | .ok todos =>
    let todoList : List todo := todos.foldl
      (fun todoList t => todoList ++ [{
        ID := t.ID.Hex
        Title := t.Title
        Completed := t.Completed
        CreatedAt := t.CreatedAt.FormatRFC3339 }]) []
    { response := some ⟨StatusOK, .M [("data", .todoList todoList)]⟩
      coll := c
      ops := [.findAll] }

/-- The handler `createTodo` (`main.go`, lines 91-133). -/
def createTodo (c : Collection) (env : Env) (r : Request) : Result :=
  match r.body with
  | .error err => { response := some ⟨StatusProcessing, .decodeError err⟩, coll := c, ops := [] }
  | .ok t =>
    if t.Title = "" then
      { response := some ⟨StatusProcessing, .M [("message", .string "Title is required")]⟩
        coll := c
        ops := [] }
    else
      let tm : todoModel :=
        { ID := env.newId, Title := t.Title, Completed := false, CreatedAt := env.now }
      match c.Insert env.fault tm.toDocument with
      | .error err =>
        { response := some ⟨StatusProcessing,
            .M [("message", .string "Failed saving the todo"), ("error", .error err)]⟩
          coll := c
          ops := [.insert tm.toDocument] }
      | .ok c' =>
        { response := some ⟨StatusCreated,
            .M [("message", .string "Todo created successfully"),
              ("todo_id", .string tm.ID.Hex)]⟩
          coll := c'
          ops := [.insert tm.toDocument] }

/-- The handler `deleteTodo` (`main.go`, lines 135-156). -/
def deleteTodo (c : Collection) (env : Env) (r : Request) : Result :=
  let id := TrimSpace r.idParam
  if ¬ IsObjectIdHex id then
    { response := some ⟨StatusBadRequest, .M [("message", .string "The id is invalid")]⟩
      coll := c
      ops := [] }
  else
    match ObjectIdHex id with
    | none => { response := none, coll := c, ops := [] }
    | some oid =>
      match c.RemoveId env.fault oid with
      | .error err =>
        { response := some ⟨StatusProcessing,
            .M [("message", .string "Failed to delete todo"), ("error", .error err)]⟩
          coll := c
          ops := [.removeId oid] }
      | .ok c' =>
        { response := some ⟨StatusOK, .M [("message", .string "Todo deleted successfully")]⟩
          coll := c'
          ops := [.removeId oid] }

/-- The handler `updateTodo` (`main.go`, lines 191-232). -/
def updateTodo (c : Collection) (env : Env) (r : Request) : Result :=
  let id := TrimSpace r.idParam
  if ¬ IsObjectIdHex id then
    { response := some ⟨StatusBadRequest, .M [("message", .string "The id is invalid")]⟩
      coll := c
      ops := [] }
  else
    match r.body with
    | .error err =>
      { response := some ⟨StatusProcessing, .decodeError err⟩, coll := c, ops := [] }
    | .ok t =>
      if t.Title = "" then
        { response := some ⟨StatusBadRequest,
            .M [("message", .string "The title field is requried")]⟩
          coll := c
          ops := [] }
      else
        match ObjectIdHex id with
        | none => { response := none, coll := c, ops := [] }
        | some oid =>
          let update : List (String × BsonValue) :=
            [("title", .string t.Title), ("completed", .bool t.Completed)]
          match c.Update env.fault oid update with
          | .error err =>
            { response := some ⟨StatusProcessing,
                .M [("message", .string "Failed to update todo"), ("error", .error err)]⟩
              coll := c
              ops := [.update oid update] }
          | .ok c' =>
            { response := some ⟨StatusOK, .M [("message", .string "Todo updated successfully")]⟩
              coll := c'
              ops := [.update oid update] }

/-- The router `todoHandlers` (`main.go`, lines 236-245): the four routes mounted
under `/todo`. -/
inductive Route where
  /-- The route `GET /`. -/
  | get
  /-- The route `POST /`. -/
  | post
  /-- The route `PUT /{id}`. -/
  | put
  /-- The route `DELETE /{id}`. -/
  | delete
deriving DecidableEq

/-- The handler `todoHandlers` dispatches a route to. -/
def todoHandlers (route : Route) (c : Collection) (env : Env) (r : Request) : Result :=
  match route with
  | .get => fetchTodos c env
  | .post => createTodo c env r
  | .put => updateTodo c env r
  | .delete => deleteTodo c env r

/-! ## Views and sample data -/

/-- The `todo` that the loop of `fetchTodos` appends for a record. -/
def viewOf (t : todoModel) : todo :=
  { ID := t.ID.Hex
    Title := t.Title
    Completed := t.Completed
    CreatedAt := t.CreatedAt.FormatRFC3339 }

/-- The status of the response written, if one was. -/
def Result.status (res : Result) : Option Nat := res.response.map Response.status

/-- The value under `message` in the response written, if any. -/
def Result.message (res : Result) : Option Value :=
  res.response.bind (fun resp => resp.body.field "message")

/-- The identifier `000000000000000000000001`. -/
def sampleId1 : ObjectId := ⟨[0, 0, 0, 0, 0, 0, 0, 0, 0, 0, 0, 1], rfl⟩

/-- The identifier `0000000000000000000000ff`. -/
def sampleId2 : ObjectId := ⟨[0, 0, 0, 0, 0, 0, 0, 0, 0, 0, 0, 255], rfl⟩

/-- A stored todo, created at 1970-01-01T00:00:01Z. -/
def sampleDoc1 : Document :=
  todoModel.toDocument
    { ID := sampleId1, Title := "buy milk", Completed := false, CreatedAt := ⟨1000⟩ }

/-- A second stored todo, created at 1970-01-01T00:00:02Z. -/
def sampleDoc2 : Document :=
  todoModel.toDocument
    { ID := sampleId2, Title := "walk dog", Completed := true, CreatedAt := ⟨2000⟩ }

/-- An environment whose storage call does not fail. -/
def sampleEnv : Env := { newId := sampleId2, now := ⟨5000⟩, fault := none }

/-! ## Lemmas on identifiers -/

theorem hexDigit_injective : ∀ m n : Fin 16, hexDigit m.val = hexDigit n.val → m = n := by
  decide

theorem encodeByte_injective (a b : Fin 256) (h : encodeByte a = encodeByte b) : a = b := by
  simp only [encodeByte, List.cons.injEq, and_true] at h
  have hq := hexDigit_injective ⟨a.val / 16, by omega⟩ ⟨b.val / 16, by omega⟩ h.1
  have hr := hexDigit_injective ⟨a.val % 16, by omega⟩ ⟨b.val % 16, by omega⟩ h.2
  simp only [Fin.mk.injEq] at hq hr
  apply Fin.ext
  omega

theorem encodeHex_injective : ∀ (xs ys : List (Fin 256)), encodeHex xs = encodeHex ys → xs = ys
  | [], [] => fun _ => rfl
  | [], _ :: _ => fun h => by simp [encodeHex, encodeByte] at h
  | _ :: _, [] => fun h => by simp [encodeHex, encodeByte] at h
  | x :: xs, y :: ys => fun h => by
    simp only [encodeHex, encodeByte, List.cons_append, List.nil_append, List.cons.injEq] at h
    have hxy : x = y := encodeByte_injective x y (by simp [encodeByte, h.1, h.2.1])
    rw [hxy, encodeHex_injective xs ys h.2.2]

/-- The hex string determines the identifier. -/
theorem ObjectId.Hex_injective (a b : ObjectId) (h : a.Hex = b.Hex) : a = b := by
  cases a with
  | mk xs hx =>
    cases b with
    | mk ys hy =>
      have : xs = ys := encodeHex_injective xs ys (congrArg String.data h)
      subst this
      rfl

theorem utf8Size_of_le (c d : Char) (hd : d.val.toNat ≤ 127) (hc : c ≤ d) : c.utf8Size = 1 := by
  have h : c.val.toNat ≤ d.val.toNat := by
    have h : c.val ≤ d.val := hc
    rw [UInt32.le_def, BitVec.le_def] at h
    exact h
  have : c.val ≤ 127 := by
    rw [UInt32.le_def, BitVec.le_def]
    exact le_trans h hd
  simp [Char.utf8Size, this]

theorem fromHexChar_utf8Size (c : Char) (n : Nat) (h : fromHexChar c = some n) :
    c.utf8Size = 1 := by
  unfold fromHexChar at h
  split at h
  · rename_i hc; exact utf8Size_of_le c _ (by decide) hc.2
  · split at h
    · rename_i hc; exact utf8Size_of_le c _ (by decide) hc.2
    · split at h
      · rename_i hc; exact utf8Size_of_le c _ (by decide) hc.2
      · simp at h

theorem decodeHex_length : ∀ (cs : List Char) (bs : List (Fin 256)),
    decodeHex cs = some bs → cs.length = 2 * bs.length ∧ String.utf8Len cs = cs.length
  | [], bs => fun h => by
    simp only [decodeHex, Option.some.injEq] at h
    subst h; simp
  | [_], bs => fun h => by simp [decodeHex] at h
  | a :: b :: rest, bs => fun h => by
    unfold decodeHex at h
    split at h
    · rename_i x y bs' hx hy hrest
      simp only [Option.some.injEq] at h
      subst h
      have ih := decodeHex_length rest bs' hrest
      have ha := fromHexChar_utf8Size a x hx
      have hb := fromHexChar_utf8Size b y hy
      simp only [List.length_cons, String.utf8Len_cons, ha, hb]
      omega
    · simp at h

/-- The guard `bson.IsObjectIdHex(id)` holds exactly when `bson.ObjectIdHex(id)` does
not panic. -/
theorem IsObjectIdHex_iff (s : String) : IsObjectIdHex s = true ↔ ∃ oid, ObjectIdHex s = some oid := by
  unfold IsObjectIdHex ObjectIdHex
  cases hd : decodeHex s.data with
  | none => simp
  | some d =>
    have hl := decodeHex_length s.data d hd
    have hsz : s.utf8ByteSize = s.data.length := by
      rw [← hl.2]; rfl
    by_cases h12 : d.length = 12
    · have h24 : s.utf8ByteSize = 24 := by omega
      constructor
      · intro _
        exact ⟨⟨d, h12⟩, dif_pos h12⟩
      · intro _
        rw [if_neg (by rw [h24]; exact fun h => h rfl)]
        rfl
    · have h24 : s.utf8ByteSize ≠ 24 := by omega
      constructor
      · intro h
        rw [if_pos h24] at h
        exact absurd h (by decide)
      · rintro ⟨oid, h⟩
        simp only [dif_neg h12] at h
        exact absurd h (by simp)

/-! ## Lemmas on the collection -/

theorem todoModel.toDocument_id (tm : todoModel) : tm.toDocument.id = tm.ID := rfl

theorem foldl_append_singleton {α β : Type} (f : α → β) (l : List α) (init : List β) :
    l.foldl (fun acc t => acc ++ [f t]) init = init ++ l.map f := by
  induction l generalizing init with
  | nil => simp
  | cons a l ih => simp [ih]

/-- The response and effect of `fetchTodos` when the query succeeds. -/
theorem fetchTodos_eq (c : Collection) (env : Env) (h : env.fault = none) :
    fetchTodos c env =
      { response := some ⟨StatusOK,
          .M [("data", .todoList (c.map (fun d => viewOf d.toTodoModel)))]⟩
        coll := c
        ops := [.findAll] } := by
  unfold fetchTodos Collection.All
  rw [h]
  simp only [Result.mk.injEq, and_true, Option.some.injEq, Response.mk.injEq, true_and]
  have := foldl_append_singleton viewOf (c.map Document.toTodoModel) []
  simp only [viewOf, List.nil_append, List.map_map] at this
  simp only [Body.M.injEq, List.cons.injEq, Prod.mk.injEq, Value.todoList.injEq, and_true,
    true_and]
  rw [this]
  rfl

/-- The guard passed, `bson.ObjectIdHex` gives the identifier: the handlers do not
panic. -/
theorem IsObjectIdHex_of_some (s : String) (i : ObjectId) (h : ObjectIdHex s = some i) :
    IsObjectIdHex s = true :=
  (IsObjectIdHex_iff s).2 ⟨i, h⟩

theorem any_id_eq_false (c : Collection) (i : ObjectId) (h : ∀ d ∈ c, d.id ≠ i) :
    c.any (fun d => d.id == i) = false := by
  rw [List.any_eq_false]
  intro d hd
  simpa using h d hd

theorem any_id_eq_true (c : Collection) (i : ObjectId) (h : ∃ d ∈ c, d.id = i) :
    c.any (fun d => d.id == i) = true := by
  rw [List.any_eq_true]
  obtain ⟨d, hd, hdi⟩ := h
  exact ⟨d, hd, by simpa using hdi⟩

/-- The call `Insert` succeeds exactly when the storage call does not fail and the
identifier of the document is not in the collection; it then adds the document at the
end. -/
theorem Insert_ok_iff (c c2 : Collection) (fault : Option MgoError) (doc : Document) :
    c.Insert fault doc = .ok c2 ↔
      fault = none ∧ (∀ d ∈ c, d.id ≠ doc.id) ∧ c2 = c ++ [doc] := by
  unfold Collection.Insert
  cases fault with
  | some err => simp
  | none =>
    by_cases h : ∀ d ∈ c, d.id ≠ doc.id
    · simp only [any_id_eq_false c doc.id h, Bool.false_eq_true, if_false, Except.ok.injEq,
        true_and]
      constructor
      · intro h2
        exact ⟨h, h2.symm⟩
      · intro h2
        exact h2.2.symm
    · have hex : ∃ d ∈ c, d.id = doc.id := by
        by_contra hne
        exact h (fun d hd hdi => hne ⟨d, hd, hdi⟩)
      simp only [any_id_eq_true c doc.id hex, if_true, true_and]
      constructor
      · intro h2
        exact absurd h2 (by simp)
      · intro h2
        exact absurd h2.1 h

/-- Where identifiers are unique, removing the first document with identifier `i` leaves
exactly the documents with another identifier. -/
theorem eraseP_eq_filter (c : Collection) (i : ObjectId) (huniq : c.UniqueIds) :
    c.eraseP (fun d => d.id == i) = c.filter (fun d => decide (d.id ≠ i)) := by
  induction c with
  | nil => rfl
  | cons d rest ih =>
    have hn : (d.id ∉ rest.map Document.id) ∧ (rest.map Document.id).Nodup := by
      simpa [Collection.UniqueIds] using huniq
    by_cases hd : d.id = i
    · have hrest : rest.filter (fun d => decide (d.id ≠ i)) = rest := by
        rw [List.filter_eq_self]
        intro e he
        have : e.id ≠ i := by
          intro hei
          exact hn.1 (by rw [hd, ← hei]; exact List.mem_map_of_mem _ he)
        simpa using this
      rw [List.eraseP_cons, List.filter_cons]
      simp only [hd, beq_self_eq_true, if_true, ne_eq, not_true_eq_false, decide_False,
        Bool.false_eq_true, if_false]
      exact hrest.symm
    · have ih' := ih hn.2
      rw [List.eraseP_cons, List.filter_cons]
      have hb : (d.id == i) = false := by simpa using hd
      simp only [hb, cond_false, ne_eq, hd, not_false_eq_true, decide_True, if_true, ih']

/-- Where identifiers are unique, replacing the first document with identifier `i`
changes that document only. -/
theorem replaceFirst_eq_map (c : Collection) (i : ObjectId) (u : List (String × BsonValue))
    (huniq : c.UniqueIds) :
    replaceFirst i u c = c.map (fun d => if d.id = i then { id := d.id, elems := u } else d) := by
  induction c with
  | nil => rfl
  | cons d rest ih =>
    have hn : (d.id ∉ rest.map Document.id) ∧ (rest.map Document.id).Nodup := by
      simpa [Collection.UniqueIds] using huniq
    by_cases hd : d.id = i
    · have hrest : rest.map (fun d => if d.id = i then { id := d.id, elems := u } else d) = rest := by
        conv_rhs => rw [← List.map_id rest]
        apply List.map_congr_left
        intro e he
        have : e.id ≠ i := by
          intro hei
          exact hn.1 (by rw [hd, ← hei]; exact List.mem_map_of_mem _ he)
        simp [this]
      simp only [replaceFirst, hd, if_true, List.map_cons, hrest]
    · simp only [replaceFirst, hd, if_false, List.map_cons, ih hn.2]

theorem replaceFirst_ids (c : Collection) (i : ObjectId) (u : List (String × BsonValue)) :
    (replaceFirst i u c).map Document.id = c.map Document.id := by
  induction c with
  | nil => rfl
  | cons d rest ih =>
    by_cases hd : d.id = i
    · simp [replaceFirst, hd]
    · simp [replaceFirst, hd, ih]

/-- Every handler keeps identifiers unique. -/
theorem todoHandlers_UniqueIds (route : Route) (c : Collection) (env : Env) (r : Request)
    (huniq : c.UniqueIds) : (todoHandlers route c env r).coll.UniqueIds := by
  cases route with
  | get =>
    simp only [todoHandlers, fetchTodos]
    split <;> exact huniq
  | post =>
    simp only [todoHandlers, createTodo]
    split
    · exact huniq
    · split
      · exact huniq
      · split
        · exact huniq
        · rename_i c' hins
          unfold Collection.Insert at hins
          split at hins
          · exact absurd hins (by simp)
          · split at hins
            · exact absurd hins (by simp)
            · rename_i hany
              simp only [Except.ok.injEq] at hins
              subst hins
              simp only [Collection.UniqueIds, List.map_append, List.map_cons, List.map_nil]
              rw [List.nodup_append]
              refine ⟨huniq, List.nodup_singleton _, ?_⟩
              intro x hx hx'
              rw [List.mem_singleton] at hx'
              obtain ⟨d, hd, hdi⟩ := List.mem_map.1 hx
              exact hany (List.any_eq_true.2 ⟨d, hd, by simp [hdi, hx']⟩)
  | put =>
    simp only [todoHandlers, updateTodo]
    split
    · exact huniq
    · split
      · exact huniq
      · split
        · exact huniq
        · split
          · exact huniq
          · split
            · exact huniq
            · rename_i c' hupd
              unfold Collection.Update at hupd
              split at hupd
              · exact absurd hupd (by simp)
              · split at hupd
                · simp only [Except.ok.injEq] at hupd
                  subst hupd
                  simpa [Collection.UniqueIds, replaceFirst_ids] using huniq
                · exact absurd hupd (by simp)
  | delete =>
    simp only [todoHandlers, deleteTodo]
    split
    · exact huniq
    · split
      · exact huniq
      · split
        · exact huniq
        · rename_i c' hrem
          unfold Collection.RemoveId at hrem
          split at hrem
          · exact absurd hrem (by simp)
          · split at hrem
            · simp only [Except.ok.injEq] at hrem
              subst hrem
              exact List.Nodup.sublist (List.Sublist.map _ (List.eraseP_sublist _)) huniq
            · exact absurd hrem (by simp)

/-! ## The paths of `updateTodo` and `deleteTodo` -/

theorem updateTodo_invalid_id (c : Collection) (env : Env) (r : Request)
    (h : IsObjectIdHex (TrimSpace r.idParam) = false) :
    updateTodo c env r =
      { response := some ⟨StatusBadRequest, .M [("message", .string "The id is invalid")]⟩
        coll := c
        ops := [] } := by
  unfold updateTodo
  simp only [h, Bool.false_eq_true, not_false_eq_true, if_true]

theorem deleteTodo_invalid_id (c : Collection) (env : Env) (r : Request)
    (h : IsObjectIdHex (TrimSpace r.idParam) = false) :
    deleteTodo c env r =
      { response := some ⟨StatusBadRequest, .M [("message", .string "The id is invalid")]⟩
        coll := c
        ops := [] } := by
  unfold deleteTodo
  simp only [h, Bool.false_eq_true, not_false_eq_true, if_true]

theorem updateTodo_decode_error (c : Collection) (env : Env) (r : Request) (err : DecodeError)
    (h : IsObjectIdHex (TrimSpace r.idParam) = true) (hbody : r.body = .error err) :
    updateTodo c env r =
      { response := some ⟨StatusProcessing, .decodeError err⟩, coll := c, ops := [] } := by
  unfold updateTodo
  simp only [h, not_true_eq_false, if_false, hbody]

theorem updateTodo_empty_title (c : Collection) (env : Env) (r : Request) (t : todo)
    (h : IsObjectIdHex (TrimSpace r.idParam) = true) (hbody : r.body = .ok t)
    (htitle : t.Title = "") :
    updateTodo c env r =
      { response := some ⟨StatusBadRequest,
          .M [("message", .string "The title field is requried")]⟩
        coll := c
        ops := [] } := by
  unfold updateTodo
  simp only [h, not_true_eq_false, if_false, hbody, htitle, if_true]

theorem updateTodo_issued (c : Collection) (env : Env) (r : Request) (t : todo) (i : ObjectId)
    (hi : ObjectIdHex (TrimSpace r.idParam) = some i) (hbody : r.body = .ok t)
    (htitle : t.Title ≠ "") :
    updateTodo c env r =
      match c.Update env.fault i [("title", .string t.Title), ("completed", .bool t.Completed)] with
      | .error err =>
        { response := some ⟨StatusProcessing,
            .M [("message", .string "Failed to update todo"), ("error", .error err)]⟩
          coll := c
          ops := [.update i [("title", .string t.Title), ("completed", .bool t.Completed)]] }
      | .ok c' =>
        { response := some ⟨StatusOK, .M [("message", .string "Todo updated successfully")]⟩
          coll := c'
          ops := [.update i [("title", .string t.Title), ("completed", .bool t.Completed)]] } := by
  unfold updateTodo
  simp only [IsObjectIdHex_of_some _ i hi, not_true_eq_false, if_false, hbody, htitle, hi]

theorem deleteTodo_issued (c : Collection) (env : Env) (r : Request) (i : ObjectId)
    (hi : ObjectIdHex (TrimSpace r.idParam) = some i) :
    deleteTodo c env r =
      match c.RemoveId env.fault i with
      | .error err =>
        { response := some ⟨StatusProcessing,
            .M [("message", .string "Failed to delete todo"), ("error", .error err)]⟩
          coll := c
          ops := [.removeId i] }
      | .ok c' =>
        { response := some ⟨StatusOK, .M [("message", .string "Todo deleted successfully")]⟩
          coll := c'
          ops := [.removeId i] } := by
  unfold deleteTodo
  simp only [IsObjectIdHex_of_some _ i hi, not_true_eq_false, if_false, hi]

theorem updateTodo_no_match (c : Collection) (env : Env) (r : Request) (t : todo)
    (i : ObjectId) (hi : ObjectIdHex (TrimSpace r.idParam) = some i)
    (hbody : r.body = .ok t) (htitle : t.Title ≠ "") (hno : ∀ d ∈ c, d.id ≠ i) :
    updateTodo c env r =
      { response := some ⟨StatusProcessing, .M [("message", .string "Failed to update todo"),
          ("error", .error (env.fault.getD .ErrNotFound))]⟩
        coll := c
        ops := [.update i [("title", .string t.Title), ("completed", .bool t.Completed)]] } := by
  rw [updateTodo_issued c env r t i hi hbody htitle]
  cases hf : env.fault with
  | none => simp only [Collection.Update, any_id_eq_false c i hno, Bool.false_eq_true, if_false,
      Option.getD_none]
  | some err => simp only [Collection.Update, Option.getD_some]

theorem deleteTodo_no_match (c : Collection) (env : Env) (r : Request)
    (i : ObjectId) (hi : ObjectIdHex (TrimSpace r.idParam) = some i)
    (hno : ∀ d ∈ c, d.id ≠ i) :
    deleteTodo c env r =
      { response := some ⟨StatusProcessing, .M [("message", .string "Failed to delete todo"),
          ("error", .error (env.fault.getD .ErrNotFound))]⟩
        coll := c
        ops := [.removeId i] } := by
  rw [deleteTodo_issued c env r i hi]
  cases hf : env.fault with
  | none => simp only [Collection.RemoveId, any_id_eq_false c i hno, Bool.false_eq_true,
      if_false, Option.getD_none]
  | some err => simp only [Collection.RemoveId, Option.getD_some]

theorem deleteTodo_fault (c : Collection) (env : Env) (r : Request)
    (i : ObjectId) (err : MgoError) (hi : ObjectIdHex (TrimSpace r.idParam) = some i)
    (hfault : env.fault = some err) :
    deleteTodo c env r =
      { response := some ⟨StatusProcessing, .M [("message", .string "Failed to delete todo"),
          ("error", .error err)]⟩
        coll := c
        ops := [.removeId i] } := by
  rw [deleteTodo_issued c env r i hi]
  simp only [Collection.RemoveId, hfault]

/-! ## The claims -/

/-- C1: for every collection and every create request whose body decodes to a `todo`
with an empty title, `createTodo` writes a response whose status is not 201 and whose
`message` is "Title is required", sends no storage operation and leaves the collection
as it was. -/
theorem createTodo_empty_title (c : Collection) (env : Env) (r : Request) (t : todo)
    (hbody : r.body = .ok t) (htitle : t.Title = "") :
    (∃ resp, (createTodo c env r).response = some resp ∧ resp.status ≠ StatusCreated ∧
      resp.body.field "message" = some (.string "Title is required")) ∧
    (createTodo c env r).coll = c ∧ (createTodo c env r).ops = [] := by
  have heq : createTodo c env r =
      { response := some ⟨StatusProcessing, .M [("message", .string "Title is required")]⟩
        coll := c
        ops := [] } := by
    unfold createTodo
    rw [hbody]
    simp only [htitle, if_true]
  rw [heq]
  exact ⟨⟨_, rfl, by decide, rfl⟩, rfl, rfl⟩

theorem createTodo_empty_title_witness :
    (∃ resp, (createTodo [sampleDoc1] sampleEnv ⟨"", .ok ⟨"", "", true, ""⟩⟩).response = some resp ∧
      resp.status ≠ StatusCreated ∧
      resp.body.field "message" = some (.string "Title is required")) ∧
    (createTodo [sampleDoc1] sampleEnv ⟨"", .ok ⟨"", "", true, ""⟩⟩).coll = [sampleDoc1] ∧
    (createTodo [sampleDoc1] sampleEnv ⟨"", .ok ⟨"", "", true, ""⟩⟩).ops = [] :=
  createTodo_empty_title [sampleDoc1] sampleEnv ⟨"", .ok ⟨"", "", true, ""⟩⟩ ⟨"", "", true, ""⟩
    rfl rfl

/-- C2: for every collection and every create request whose body decodes to a `todo`
with a non-empty title (untrimmed), when the insert succeeds, that is when the storage
call does not fail and the new identifier is not in the collection, `createTodo` leaves
the collection with exactly one more document, after the former ones; the record it
holds has the title supplied, `completed` false whatever the body said and `createdAt`
the current time; the response has status 201 and `todo_id` the hex string of the
identifier of that record. -/
theorem createTodo_inserts (c : Collection) (env : Env) (r : Request) (t : todo)
    (hbody : r.body = .ok t) (htitle : t.Title ≠ "")
    (hfault : env.fault = none) (hfresh : ∀ d ∈ c, d.id ≠ env.newId) :
    ∃ d : Document, (createTodo c env r).coll = c ++ [d] ∧
      d.toTodoModel.Title = t.Title ∧ d.toTodoModel.Completed = false ∧
      d.toTodoModel.CreatedAt = env.now ∧
      (createTodo c env r).ops = [.insert d] ∧
      ∃ resp, (createTodo c env r).response = some resp ∧ resp.status = StatusCreated ∧
        resp.body.field "todo_id" = some (.string d.toTodoModel.ID.Hex) := by
  have hany : c.any (fun d => d.id == env.newId) = false := by
    rw [List.any_eq_false]
    intro d hd
    simpa using hfresh d hd
  show ∃ d : Document, (createTodo c env r).coll = c ++ [d] ∧ _
  have heq : createTodo c env r =
      { response := some ⟨StatusCreated, .M [("message", .string "Todo created successfully"),
          ("todo_id", .string env.newId.Hex)]⟩
        coll := c ++ [todoModel.toDocument ⟨env.newId, t.Title, false, env.now⟩]
        ops := [.insert (todoModel.toDocument ⟨env.newId, t.Title, false, env.now⟩)] } := by
    unfold createTodo Collection.Insert
    rw [hbody, hfault]
    simp only [htitle, if_false, todoModel.toDocument_id, hany, Bool.false_eq_true]
  rw [heq]
  exact ⟨_, rfl, rfl, rfl, rfl, rfl, _, rfl, rfl, rfl⟩

theorem createTodo_inserts_witness :
    ∃ d : Document,
      (createTodo [sampleDoc1] sampleEnv ⟨"", .ok ⟨"", " ", true, ""⟩⟩).coll = [sampleDoc1] ++ [d] ∧
      d.toTodoModel.Title = " " ∧ d.toTodoModel.Completed = false ∧
      d.toTodoModel.CreatedAt = sampleEnv.now ∧
      (createTodo [sampleDoc1] sampleEnv ⟨"", .ok ⟨"", " ", true, ""⟩⟩).ops = [.insert d] ∧
      ∃ resp, (createTodo [sampleDoc1] sampleEnv ⟨"", .ok ⟨"", " ", true, ""⟩⟩).response = some resp ∧
        resp.status = StatusCreated ∧
        resp.body.field "todo_id" = some (.string d.toTodoModel.ID.Hex) :=
  createTodo_inserts [sampleDoc1] sampleEnv ⟨"", .ok ⟨"", " ", true, ""⟩⟩ ⟨"", " ", true, ""⟩
    rfl (by decide) rfl (by decide)

/-- C3: for every collection, every body and every path identifier that, once trimmed,
is not the hex string of an object identifier, `updateTodo` and `deleteTodo` both
respond with status 400, send no storage operation and leave the collection as it
was. -/
theorem invalid_id_is_bad_request (c : Collection) (env : Env) (r : Request)
    (h : IsObjectIdHex (TrimSpace r.idParam) = false) :
    ((updateTodo c env r).status = some 400 ∧ (updateTodo c env r).coll = c ∧
      (updateTodo c env r).ops = []) ∧
    ((deleteTodo c env r).status = some 400 ∧ (deleteTodo c env r).coll = c ∧
      (deleteTodo c env r).ops = []) := by
  rw [updateTodo_invalid_id c env r h, deleteTodo_invalid_id c env r h]
  exact ⟨⟨rfl, rfl, rfl⟩, rfl, rfl, rfl⟩

theorem invalid_id_is_bad_request_witness :
    ((updateTodo [sampleDoc1] sampleEnv ⟨" 12zz ", .ok ⟨"", "t", true, ""⟩⟩).status = some 400 ∧
      (updateTodo [sampleDoc1] sampleEnv ⟨" 12zz ", .ok ⟨"", "t", true, ""⟩⟩).coll = [sampleDoc1] ∧
      (updateTodo [sampleDoc1] sampleEnv ⟨" 12zz ", .ok ⟨"", "t", true, ""⟩⟩).ops = []) ∧
    ((deleteTodo [sampleDoc1] sampleEnv ⟨" 12zz ", .ok ⟨"", "t", true, ""⟩⟩).status = some 400 ∧
      (deleteTodo [sampleDoc1] sampleEnv ⟨" 12zz ", .ok ⟨"", "t", true, ""⟩⟩).coll = [sampleDoc1] ∧
      (deleteTodo [sampleDoc1] sampleEnv ⟨" 12zz ", .ok ⟨"", "t", true, ""⟩⟩).ops = []) :=
  invalid_id_is_bad_request [sampleDoc1] sampleEnv ⟨" 12zz ", .ok ⟨"", "t", true, ""⟩⟩ (by decide)

/-- C5: `updateTodo` checks in a fixed order and stops at the first failure without
sending a storage operation or changing the collection: (1) an invalid identifier gives
status 400 whatever the body; (2) otherwise a body that does not decode gives the
status 102, which is neither 200 nor 400, whatever the title; (3) otherwise an empty
title gives status 400; and the storage update is sent exactly when the three checks
pass. -/
theorem updateTodo_check_order (c : Collection) (env : Env) (r : Request) :
    (IsObjectIdHex (TrimSpace r.idParam) = false →
      (updateTodo c env r).status = some 400 ∧ (updateTodo c env r).coll = c ∧
        (updateTodo c env r).ops = []) ∧
    (IsObjectIdHex (TrimSpace r.idParam) = true → ∀ err, r.body = .error err →
      (updateTodo c env r).status = some 102 ∧ (102 : Nat) ≠ 200 ∧ (102 : Nat) ≠ 400 ∧
        (updateTodo c env r).coll = c ∧ (updateTodo c env r).ops = []) ∧
    (IsObjectIdHex (TrimSpace r.idParam) = true → ∀ t, r.body = .ok t → t.Title = "" →
      (updateTodo c env r).status = some 400 ∧ (updateTodo c env r).coll = c ∧
        (updateTodo c env r).ops = []) ∧
    ((∃ i u, (updateTodo c env r).ops = [.update i u]) ↔
      IsObjectIdHex (TrimSpace r.idParam) = true ∧ ∃ t, r.body = .ok t ∧ t.Title ≠ "") ∧
    ((updateTodo c env r).ops = [] ∨ ∃ i u, (updateTodo c env r).ops = [.update i u]) := by
  refine ⟨?_, ?_, ?_, ?_⟩
  · intro h
    rw [updateTodo_invalid_id c env r h]
    exact ⟨rfl, rfl, rfl⟩
  · intro h err hbody
    rw [updateTodo_decode_error c env r err h hbody]
    exact ⟨rfl, by decide, by decide, rfl, rfl⟩
  · intro h t hbody htitle
    rw [updateTodo_empty_title c env r t h hbody htitle]
    exact ⟨rfl, rfl, rfl⟩
  · cases hv : IsObjectIdHex (TrimSpace r.idParam) with
    | false =>
      rw [updateTodo_invalid_id c env r hv]
      simp
    | true =>
      obtain ⟨i, hi⟩ := (IsObjectIdHex_iff _).1 hv
      cases hbody : r.body with
      | error err =>
        rw [updateTodo_decode_error c env r err hv hbody]
        simp
      | ok t =>
        by_cases htitle : t.Title = ""
        · rw [updateTodo_empty_title c env r t hv hbody htitle]
          simp [htitle]
        · rw [updateTodo_issued c env r t i hi hbody htitle]
          cases c.Update env.fault i [("title", .string t.Title), ("completed", .bool t.Completed)] <;>
            simp [htitle]

theorem updateTodo_check_order_witness :
    (updateTodo [sampleDoc1] sampleEnv ⟨"zz", .error .EOF⟩).status = some 400 ∧
    (updateTodo [sampleDoc1] sampleEnv ⟨"000000000000000000000001", .error .EOF⟩).status
      = some 102 ∧
    (updateTodo [sampleDoc1] sampleEnv
      ⟨"000000000000000000000001", .ok ⟨"", "", true, ""⟩⟩).status = some 400 :=
  ⟨((updateTodo_check_order [sampleDoc1] sampleEnv ⟨"zz", .error .EOF⟩).1 (by decide)).1,
   ((updateTodo_check_order [sampleDoc1] sampleEnv
      ⟨"000000000000000000000001", .error .EOF⟩).2.1 (by decide) _ rfl).1,
   ((updateTodo_check_order [sampleDoc1] sampleEnv
      ⟨"000000000000000000000001", .ok ⟨"", "", true, ""⟩⟩).2.2.1 (by decide) _ rfl rfl).1⟩

/-- C6: for every collection on which the find-all query succeeds, `fetchTodos`
responds with status 200 and, under `data`, an array (never null, empty for an empty
collection) with one view for each stored record, in the order of the collection; the
view has the hex string of the identifier of the record, its title, its `completed`
and its `createdAt` formatted as RFC3339; the collection is not modified. -/
theorem fetchTodos_lists_all (c : Collection) (env : Env) (hfault : env.fault = none) :
    ∃ views : List todo,
      (fetchTodos c env).response = some ⟨StatusOK, .M [("data", .todoList views)]⟩ ∧
      StatusOK = 200 ∧ Value.todoList views ≠ Value.null ∧
      views.length = c.length ∧
      (∀ (k : Nat) (hk : k < c.length) (hv : k < views.length),
        (views.get ⟨k, hv⟩).ID = (c.get ⟨k, hk⟩).toTodoModel.ID.Hex ∧
        (views.get ⟨k, hv⟩).Title = (c.get ⟨k, hk⟩).toTodoModel.Title ∧
        (views.get ⟨k, hv⟩).Completed = (c.get ⟨k, hk⟩).toTodoModel.Completed ∧
        (views.get ⟨k, hv⟩).CreatedAt = (c.get ⟨k, hk⟩).toTodoModel.CreatedAt.FormatRFC3339) ∧
      (c = [] → views = []) ∧
      (fetchTodos c env).coll = c := by
  refine ⟨c.map (fun d => viewOf d.toTodoModel), ?_⟩
  rw [fetchTodos_eq c env hfault]
  refine ⟨rfl, rfl, by simp, by simp, ?_, ?_, rfl⟩
  · intro k hk hv
    simp [viewOf]
  · intro h
    simp [h]

theorem fetchTodos_lists_all_witness :
    ∃ views : List todo,
      (fetchTodos [sampleDoc1, sampleDoc2] sampleEnv).response =
        some ⟨StatusOK, .M [("data", .todoList views)]⟩ ∧
      StatusOK = 200 ∧ Value.todoList views ≠ Value.null ∧
      views.length = [sampleDoc1, sampleDoc2].length ∧
      (∀ (k : Nat) (hk : k < [sampleDoc1, sampleDoc2].length) (hv : k < views.length),
        (views.get ⟨k, hv⟩).ID = ([sampleDoc1, sampleDoc2].get ⟨k, hk⟩).toTodoModel.ID.Hex ∧
        (views.get ⟨k, hv⟩).Title = ([sampleDoc1, sampleDoc2].get ⟨k, hk⟩).toTodoModel.Title ∧
        (views.get ⟨k, hv⟩).Completed =
          ([sampleDoc1, sampleDoc2].get ⟨k, hk⟩).toTodoModel.Completed ∧
        (views.get ⟨k, hv⟩).CreatedAt =
          ([sampleDoc1, sampleDoc2].get ⟨k, hk⟩).toTodoModel.CreatedAt.FormatRFC3339) ∧
      ([sampleDoc1, sampleDoc2] = [] → views = []) ∧
      (fetchTodos [sampleDoc1, sampleDoc2] sampleEnv).coll = [sampleDoc1, sampleDoc2] :=
  fetchTodos_lists_all [sampleDoc1, sampleDoc2] sampleEnv rfl

/-- C4, the code at a failing input: the collection holds the todo "buy milk", created
at 1970-01-01T00:00:01Z, and `PUT /todo/000000000000000000000001` carries the title
"buy oat milk" and `completed` true. The update succeeds with status 200 and the
document keeps its identifier and gets the new title and `completed`, but its
`created_at` element is gone: the record read back has the zero time as `createdAt`,
and a list afterwards shows `0001-01-01T00:00:00Z`. -/
theorem updateTodo_drops_created_at :
    (updateTodo [sampleDoc1] sampleEnv
      ⟨"000000000000000000000001", .ok ⟨"", "buy oat milk", true, ""⟩⟩).status = some 200 ∧
    (updateTodo [sampleDoc1] sampleEnv
      ⟨"000000000000000000000001", .ok ⟨"", "buy oat milk", true, ""⟩⟩).coll =
      [{ id := sampleId1,
         elems := [("title", .string "buy oat milk"), ("completed", .bool true)] }] ∧
    sampleDoc1.toTodoModel.CreatedAt = ⟨1000⟩ ∧
    (updateTodo [sampleDoc1] sampleEnv
      ⟨"000000000000000000000001", .ok ⟨"", "buy oat milk", true, ""⟩⟩).coll.map
        (fun d => d.toTodoModel.CreatedAt) = [Time.zero] ∧
    Time.zero ≠ ⟨1000⟩ ∧
    (fetchTodos [sampleDoc1] sampleEnv).response = some ⟨200, .M [("data", .todoList
      [⟨"000000000000000000000001", "buy milk", false, "1970-01-01T00:00:01Z"⟩])]⟩ ∧
    (fetchTodos (updateTodo [sampleDoc1] sampleEnv
      ⟨"000000000000000000000001", .ok ⟨"", "buy oat milk", true, ""⟩⟩).coll
        sampleEnv).response = some ⟨200, .M [("data", .todoList
      [⟨"000000000000000000000001", "buy oat milk", true, "0001-01-01T00:00:00Z"⟩])]⟩ := by
  refine ⟨?_, ?_, ?_, ?_, ?_, ?_, ?_⟩ <;> decide

/-- What a successful `updateTodo` does to the collection, for every collection with
unique identifiers that holds a document with identifier `i`: status 200; the document
with identifier `i` is replaced by one with that identifier and the elements `title`
and `completed` only, so the record read back has the zero time as `createdAt`; every
other document is unchanged. -/
theorem updateTodo_replaces_document (c : Collection) (env : Env) (r : Request) (t : todo)
    (i : ObjectId) (huniq : c.UniqueIds)
    (hi : ObjectIdHex (TrimSpace r.idParam) = some i) (hbody : r.body = .ok t)
    (htitle : t.Title ≠ "") (hmem : ∃ d ∈ c, d.id = i) (hfault : env.fault = none) :
    (updateTodo c env r).status = some 200 ∧
    (updateTodo c env r).coll = c.map (fun d => if d.id = i then
      { id := i, elems := [("title", .string t.Title), ("completed", .bool t.Completed)] }
      else d) ∧
    (∀ d ∈ (updateTodo c env r).coll, d.id = i →
      d.toTodoModel = ⟨i, t.Title, t.Completed, Time.zero⟩) := by
  have hcoll : replaceFirst i [("title", .string t.Title), ("completed", .bool t.Completed)] c =
      c.map (fun d => if d.id = i then
        { id := i, elems := [("title", .string t.Title), ("completed", .bool t.Completed)] }
        else d) := by
    rw [replaceFirst_eq_map c i _ huniq]
    apply List.map_congr_left
    intro d _
    by_cases hd : d.id = i
    · simp [hd]
    · simp [hd]
  have heq : updateTodo c env r =
      { response := some ⟨StatusOK, .M [("message", .string "Todo updated successfully")]⟩
        coll := c.map (fun d => if d.id = i then
          { id := i, elems := [("title", .string t.Title), ("completed", .bool t.Completed)] }
          else d)
        ops := [.update i [("title", .string t.Title), ("completed", .bool t.Completed)]] } := by
    rw [updateTodo_issued c env r t i hi hbody htitle]
    simp only [Collection.Update, hfault, any_id_eq_true c i hmem, if_true, hcoll]
  rw [heq]
  refine ⟨rfl, rfl, ?_⟩
  intro d hd hdi
  obtain ⟨e, _, he⟩ := List.mem_map.1 hd
  by_cases hei : e.id = i
  · rw [if_pos hei] at he
    subst he
    rfl
  · rw [if_neg hei] at he
    subst he
    exact absurd hdi hei

theorem updateTodo_replaces_document_sample :
    (updateTodo [sampleDoc1, sampleDoc2] sampleEnv
      ⟨"0000000000000000000000FF", .ok ⟨"", "feed cat", false, ""⟩⟩).status = some 200 ∧
    (updateTodo [sampleDoc1, sampleDoc2] sampleEnv
      ⟨"0000000000000000000000FF", .ok ⟨"", "feed cat", false, ""⟩⟩).coll =
      [sampleDoc1, sampleDoc2].map (fun d => if d.id = sampleId2 then
        { id := sampleId2, elems := [("title", .string "feed cat"), ("completed", .bool false)] }
        else d) ∧
    (∀ d ∈ (updateTodo [sampleDoc1, sampleDoc2] sampleEnv
      ⟨"0000000000000000000000FF", .ok ⟨"", "feed cat", false, ""⟩⟩).coll, d.id = sampleId2 →
      d.toTodoModel = ⟨sampleId2, "feed cat", false, Time.zero⟩) :=
  updateTodo_replaces_document [sampleDoc1, sampleDoc2] sampleEnv
    ⟨"0000000000000000000000FF", .ok ⟨"", "feed cat", false, ""⟩⟩ ⟨"", "feed cat", false, ""⟩
    sampleId2 (by decide) (by decide) rfl (by decide) ⟨sampleDoc2, by decide, rfl⟩ rfl

/-- C7, counterexample: a `POST /todo/` with an empty body. The decoder returns `io.EOF`,
the response has status 102, neither 200 nor 201, and its body is the JSON of the error
value, an object with no `message` field. -/
theorem decode_error_has_no_message :
    ∃ resp, (todoHandlers .post [] sampleEnv ⟨"", .error .EOF⟩).response = some resp ∧
      resp.status ≠ 200 ∧ resp.status ≠ 201 ∧ "message" ∉ resp.body.keys :=
  ⟨⟨StatusProcessing, .decodeError .EOF⟩, rfl, by decide, by decide, by decide⟩

/-- C7, amended: every response of `fetchTodos`, `createTodo`, `updateTodo` or
`deleteTodo` whose status is neither 200 nor 201 is a map with a `message` field, except
the response of `createTodo` and `updateTodo` to a body that does not decode: that one
has status 102 and its body is the decode error itself, which has no `message` field. -/
theorem error_response_message (route : Route) (c : Collection) (env : Env) (r : Request)
    (resp : Response) (hresp : (todoHandlers route c env r).response = some resp)
    (hs : resp.status ≠ 200 ∧ resp.status ≠ 201) :
    ((∃ fields, resp.body = .M fields) ∧ "message" ∈ resp.body.keys) ∨
    ((route = .post ∨ route = .put) ∧ ∃ err, r.body = .error err ∧
      resp = ⟨StatusProcessing, .decodeError err⟩ ∧ "message" ∉ resp.body.keys) := by
  have hkeys : ∀ err : DecodeError, "message" ∉ (Body.decodeError err).keys := by
    intro err
    cases err <;> simp [Body.keys, DecodeError.jsonKeys]
  cases route with
  | get =>
    simp only [todoHandlers, fetchTodos] at hresp
    split at hresp
    · simp only [Option.some.injEq] at hresp
      subst hresp
      exact Or.inl ⟨⟨_, rfl⟩, by simp [Body.keys]⟩
    · simp only [Option.some.injEq] at hresp
      subst hresp
      exact absurd rfl hs.1
  | post =>
    simp only [todoHandlers, createTodo] at hresp
    split at hresp
    · rename_i err hbody
      simp only [Option.some.injEq] at hresp
      subst hresp
      exact Or.inr ⟨Or.inl rfl, err, hbody, rfl, hkeys err⟩
    · split at hresp
      · simp only [Option.some.injEq] at hresp
        subst hresp
        exact Or.inl ⟨⟨_, rfl⟩, by simp [Body.keys]⟩
      · split at hresp
        · simp only [Option.some.injEq] at hresp
          subst hresp
          exact Or.inl ⟨⟨_, rfl⟩, by simp [Body.keys]⟩
        · simp only [Option.some.injEq] at hresp
          subst hresp
          exact absurd rfl hs.2
  | put =>
    simp only [todoHandlers, updateTodo] at hresp
    split at hresp
    · simp only [Option.some.injEq] at hresp
      subst hresp
      exact Or.inl ⟨⟨_, rfl⟩, by simp [Body.keys]⟩
    · split at hresp
      · rename_i err hbody
        simp only [Option.some.injEq] at hresp
        subst hresp
        exact Or.inr ⟨Or.inr rfl, err, hbody, rfl, hkeys err⟩
      · split at hresp
        · simp only [Option.some.injEq] at hresp
          subst hresp
          exact Or.inl ⟨⟨_, rfl⟩, by simp [Body.keys]⟩
        · split at hresp
          · exact absurd hresp (by simp)
          · split at hresp
            · simp only [Option.some.injEq] at hresp
              subst hresp
              exact Or.inl ⟨⟨_, rfl⟩, by simp [Body.keys]⟩
            · simp only [Option.some.injEq] at hresp
              subst hresp
              exact absurd rfl hs.1
  | delete =>
    simp only [todoHandlers, deleteTodo] at hresp
    split at hresp
    · simp only [Option.some.injEq] at hresp
      subst hresp
      exact Or.inl ⟨⟨_, rfl⟩, by simp [Body.keys]⟩
    · split at hresp
      · exact absurd hresp (by simp)
      · split at hresp
        · simp only [Option.some.injEq] at hresp
          subst hresp
          exact Or.inl ⟨⟨_, rfl⟩, by simp [Body.keys]⟩
        · simp only [Option.some.injEq] at hresp
          subst hresp
          exact absurd rfl hs.1

theorem error_response_message_witness :
    ((∃ fields, (Response.mk StatusProcessing
        (.M [("message", .string "Title is required")])).body = .M fields) ∧
      "message" ∈ (Response.mk StatusProcessing
        (.M [("message", .string "Title is required")])).body.keys) ∨
    ((Route.post = .post ∨ Route.post = .put) ∧ ∃ err,
      (Request.mk "" (.ok ⟨"", "", false, ""⟩)).body = .error err ∧
      Response.mk StatusProcessing (.M [("message", .string "Title is required")]) =
        ⟨StatusProcessing, .decodeError err⟩ ∧
      "message" ∉ (Response.mk StatusProcessing
        (.M [("message", .string "Title is required")])).body.keys) :=
  error_response_message .post [] sampleEnv ⟨"", .ok ⟨"", "", false, ""⟩⟩
    ⟨StatusProcessing, .M [("message", .string "Title is required")]⟩ rfl
    ⟨by decide, by decide⟩

/-- C8, counterexample: the collection is empty, the identifier
`000000000000000000000001` is valid and the body carries the title "x". The update is
sent, `mgo` returns `ErrNotFound`, and the response has status 102 and the message
"Failed to update todo": the request is not treated as a success. -/
theorem updateTodo_missing_not_success :
    ObjectIdHex (TrimSpace "000000000000000000000001") = some sampleId1 ∧
    (updateTodo [] sampleEnv
      ⟨"000000000000000000000001", .ok ⟨"", "x", false, ""⟩⟩).response =
      some ⟨102, .M [("message", .string "Failed to update todo"),
        ("error", .error .ErrNotFound)]⟩ ∧
    ¬ ((updateTodo [] sampleEnv
        ⟨"000000000000000000000001", .ok ⟨"", "x", false, ""⟩⟩).status = some 200 ∧
      (updateTodo [] sampleEnv
        ⟨"000000000000000000000001", .ok ⟨"", "x", false, ""⟩⟩).message =
        some (.string "Todo updated successfully")) := by
  refine ⟨?_, ?_, ?_⟩ <;> decide

/-- C8, amended: for every collection with no document with the valid identifier `i`,
an update request for `i` whose body decodes with a non-empty title is answered as a
storage failure: status 102 and the message "Failed to update todo"; when the storage
call itself does not fail the error reported is `ErrNotFound`; the collection is
unchanged and no document is created. -/
theorem updateTodo_missing_fails (c : Collection) (env : Env) (r : Request) (t : todo)
    (i : ObjectId) (hi : ObjectIdHex (TrimSpace r.idParam) = some i)
    (hbody : r.body = .ok t) (htitle : t.Title ≠ "") (hno : ∀ d ∈ c, d.id ≠ i) :
    (updateTodo c env r).status = some 102 ∧
    (updateTodo c env r).message = some (.string "Failed to update todo") ∧
    (env.fault = none → ∃ resp, (updateTodo c env r).response = some resp ∧
      resp.body.field "error" = some (.error .ErrNotFound)) ∧
    (updateTodo c env r).coll = c := by
  rw [updateTodo_no_match c env r t i hi hbody htitle hno]
  refine ⟨rfl, rfl, ?_, rfl⟩
  intro hf
  rw [hf]
  exact ⟨_, rfl, rfl⟩

theorem updateTodo_missing_fails_witness :
    (updateTodo [sampleDoc2] sampleEnv
      ⟨" 000000000000000000000001 ", .ok ⟨"", "x", false, ""⟩⟩).status = some 102 ∧
    (updateTodo [sampleDoc2] sampleEnv
      ⟨" 000000000000000000000001 ", .ok ⟨"", "x", false, ""⟩⟩).message =
      some (.string "Failed to update todo") ∧
    (sampleEnv.fault = none → ∃ resp, (updateTodo [sampleDoc2] sampleEnv
      ⟨" 000000000000000000000001 ", .ok ⟨"", "x", false, ""⟩⟩).response = some resp ∧
      resp.body.field "error" = some (.error .ErrNotFound)) ∧
    (updateTodo [sampleDoc2] sampleEnv
      ⟨" 000000000000000000000001 ", .ok ⟨"", "x", false, ""⟩⟩).coll = [sampleDoc2] :=
  updateTodo_missing_fails [sampleDoc2] sampleEnv
    ⟨" 000000000000000000000001 ", .ok ⟨"", "x", false, ""⟩⟩ ⟨"", "x", false, ""⟩ sampleId1
    (by decide) rfl (by decide) (by decide)

/-- C9: for every collection (identifiers unique) that holds a document with the valid
identifier `i`, a `deleteTodo` for `i` whose storage call succeeds responds with status
200 and leaves exactly the documents with another identifier, unchanged and in their
order, so none with identifier `i`; a `fetchTodos` afterwards returns a `data` array
with no view whose id is the hex string of `i`. -/
theorem deleteTodo_removes (c : Collection) (env : Env) (r : Request) (i : ObjectId)
    (huniq : c.UniqueIds) (hi : ObjectIdHex (TrimSpace r.idParam) = some i)
    (hmem : ∃ d ∈ c, d.id = i) (hfault : env.fault = none) :
    (deleteTodo c env r).status = some 200 ∧
    (deleteTodo c env r).coll = c.filter (fun d => decide (d.id ≠ i)) ∧
    (∀ d ∈ (deleteTodo c env r).coll, d.id ≠ i) ∧
    (∀ d, d ∈ (deleteTodo c env r).coll ↔ d ∈ c ∧ d.id ≠ i) ∧
    (∀ env2 : Env, env2.fault = none → ∃ views : List todo,
      (fetchTodos (deleteTodo c env r).coll env2).response =
        some ⟨StatusOK, .M [("data", .todoList views)]⟩ ∧
      ∀ v ∈ views, v.ID ≠ i.Hex) := by
  have heq : deleteTodo c env r =
      { response := some ⟨StatusOK, .M [("message", .string "Todo deleted successfully")]⟩
        coll := c.filter (fun d => decide (d.id ≠ i))
        ops := [.removeId i] } := by
    rw [deleteTodo_issued c env r i hi]
    simp only [Collection.RemoveId, hfault, any_id_eq_true c i hmem, if_true,
      eraseP_eq_filter c i huniq]
  rw [heq]
  have hmemf : ∀ d, d ∈ c.filter (fun d => decide (d.id ≠ i)) ↔ d ∈ c ∧ d.id ≠ i := by
    intro d
    simp [List.mem_filter]
  refine ⟨rfl, rfl, fun d hd => ((hmemf d).1 hd).2, hmemf, ?_⟩
  intro env2 hf2
  refine ⟨_, congrArg Result.response (fetchTodos_eq _ env2 hf2), ?_⟩
  intro v hv hvi
  obtain ⟨d, hd, hdv⟩ := List.mem_map.1 hv
  have hne := ((hmemf d).1 hd).2
  apply hne
  apply ObjectId.Hex_injective
  rw [← hvi, ← hdv]
  rfl

theorem deleteTodo_removes_witness :
    (deleteTodo [sampleDoc1, sampleDoc2] sampleEnv
      ⟨"000000000000000000000001", .error .EOF⟩).status = some 200 ∧
    (deleteTodo [sampleDoc1, sampleDoc2] sampleEnv
      ⟨"000000000000000000000001", .error .EOF⟩).coll =
      [sampleDoc1, sampleDoc2].filter (fun d => decide (d.id ≠ sampleId1)) ∧
    (∀ d ∈ (deleteTodo [sampleDoc1, sampleDoc2] sampleEnv
      ⟨"000000000000000000000001", .error .EOF⟩).coll, d.id ≠ sampleId1) ∧
    (∀ d, d ∈ (deleteTodo [sampleDoc1, sampleDoc2] sampleEnv
      ⟨"000000000000000000000001", .error .EOF⟩).coll ↔
        d ∈ [sampleDoc1, sampleDoc2] ∧ d.id ≠ sampleId1) ∧
    (∀ env2 : Env, env2.fault = none → ∃ views : List todo,
      (fetchTodos (deleteTodo [sampleDoc1, sampleDoc2] sampleEnv
        ⟨"000000000000000000000001", .error .EOF⟩).coll env2).response =
        some ⟨StatusOK, .M [("data", .todoList views)]⟩ ∧
      ∀ v ∈ views, v.ID ≠ sampleId1.Hex) :=
  deleteTodo_removes [sampleDoc1, sampleDoc2] sampleEnv
    ⟨"000000000000000000000001", .error .EOF⟩ sampleId1 (by decide) (by decide)
    ⟨sampleDoc1, by decide, rfl⟩ rfl

/-- C10: for every collection with no document with the valid identifier `i`,
`deleteTodo` for `i` leaves the collection unchanged and responds with status 102,
neither 200 nor 400, and the message "Failed to delete todo": the status and the
message it gives, on any collection, for any other failure of the delete operation. -/
theorem deleteTodo_missing_is_generic_failure (c : Collection) (env : Env) (r : Request)
    (i : ObjectId) (hi : ObjectIdHex (TrimSpace r.idParam) = some i)
    (hno : ∀ d ∈ c, d.id ≠ i) :
    (deleteTodo c env r).coll = c ∧
    (deleteTodo c env r).status = some 102 ∧ (102 : Nat) ≠ 200 ∧ (102 : Nat) ≠ 400 ∧
    (deleteTodo c env r).message = some (.string "Failed to delete todo") ∧
    (∀ (c2 : Collection) (env2 : Env) (r2 : Request) (i2 : ObjectId) (err : MgoError),
      ObjectIdHex (TrimSpace r2.idParam) = some i2 → env2.fault = some err →
      (deleteTodo c2 env2 r2).status = (deleteTodo c env r).status ∧
      (deleteTodo c2 env2 r2).message = (deleteTodo c env r).message) := by
  have hfail : ∀ (c2 : Collection) (env2 : Env) (r2 : Request) (i2 : ObjectId) (err : MgoError),
      ObjectIdHex (TrimSpace r2.idParam) = some i2 → env2.fault = some err →
      (deleteTodo c2 env2 r2).status = some 102 ∧
      (deleteTodo c2 env2 r2).message = some (.string "Failed to delete todo") := by
    intro c2 env2 r2 i2 err h2 hf2
    rw [deleteTodo_fault c2 env2 r2 i2 err h2 hf2]
    exact ⟨rfl, rfl⟩
  have hhere : (deleteTodo c env r).coll = c ∧ (deleteTodo c env r).status = some 102 ∧
      (deleteTodo c env r).message = some (.string "Failed to delete todo") := by
    rw [deleteTodo_no_match c env r i hi hno]
    exact ⟨rfl, rfl, rfl⟩
  refine ⟨hhere.1, hhere.2.1, by decide, by decide, hhere.2.2, ?_⟩
  intro c2 env2 r2 i2 err h2 hf2
  rw [hhere.2.1, hhere.2.2]
  exact hfail c2 env2 r2 i2 err h2 hf2

theorem deleteTodo_missing_is_generic_failure_witness :
    (deleteTodo [sampleDoc2] sampleEnv ⟨"000000000000000000000001", .error .EOF⟩).coll =
      [sampleDoc2] ∧
    (deleteTodo [sampleDoc2] sampleEnv ⟨"000000000000000000000001", .error .EOF⟩).status =
      some 102 ∧ (102 : Nat) ≠ 200 ∧ (102 : Nat) ≠ 400 ∧
    (deleteTodo [sampleDoc2] sampleEnv ⟨"000000000000000000000001", .error .EOF⟩).message =
      some (.string "Failed to delete todo") ∧
    (∀ (c2 : Collection) (env2 : Env) (r2 : Request) (i2 : ObjectId) (err : MgoError),
      ObjectIdHex (TrimSpace r2.idParam) = some i2 → env2.fault = some err →
      (deleteTodo c2 env2 r2).status =
        (deleteTodo [sampleDoc2] sampleEnv ⟨"000000000000000000000001", .error .EOF⟩).status ∧
      (deleteTodo c2 env2 r2).message =
        (deleteTodo [sampleDoc2] sampleEnv
          ⟨"000000000000000000000001", .error .EOF⟩).message) :=
  deleteTodo_missing_is_generic_failure [sampleDoc2] sampleEnv
    ⟨"000000000000000000000001", .error .EOF⟩ sampleId1 (by decide) (by decide)

end TodoGolang
